import Mathlib

/-!
# Verification of `vector.hpp`

A shallow embedding of the generic vector library `vector.hpp`: the value types
`Vector2<T>`, `Vector3<T>` and `PitchYaw<T>`, their operators, and the conversion functions.

The element type `T` is a type parameter.  Its arithmetic operators are taken from the
usual type classes (`Add`, `Sub`, `Mul`, `Div`, `Mod`, `Neg`), its built-in comparison from
`Ord` and `BEq`.  The `<cmath>` functions the source calls (`std::sqrt`, `std::sin`,
`std::cos`, `std::asin`, `std::atan2`) are explicit function arguments of the
definitions that call them, so that every definition is generic and executable, and the
theorems about the real-number model instantiate them with `Real.sqrt`, `Real.sin`,
`Real.cos`, `Real.arcsin` and the principal argument `Complex.arg` of `x + i*y`.

The in-place operators act on a memory of objects addressed by references, so that the
operands of a compound operator may alias.  The element type `int` is the type `CInt`: a
32-bit value or the outcome of undefined behaviour, with truncating division and remainder.
-/

namespace VectorLib

/-! ## Data model -/

/-- The struct `Vector2<T>`: members `x`, `y` in declaration order. -/
structure Vector2 (T : Type) where
  x : T
  y : T
deriving DecidableEq

/-- The struct `Vector3<T>`: members `x`, `y`, `z` in declaration order. -/
structure Vector3 (T : Type) where
  x : T
  y : T
  z : T
deriving DecidableEq

/-- The struct `PitchYaw<T>`: members `pitch`, `yaw` in declaration order. -/
structure PitchYaw (T : Type) where
  pitch : T
  yaw : T
deriving DecidableEq

/-! ## `Vector2<T>` -/

/-- Defaulted `operator<=>` of `Vector2`: three-way comparison of the members in declaration
order, returning the first result that is not "equal". -/
def Vector2.threeWay {T : Type} [Ord T] (a b : Vector2 T) : Ordering :=
  match compare a.x b.x with
  | .eq => compare a.y b.y
  | c => c

/-- Expression `a < b` on `Vector2`, rewritten by the language as `(a <=> b) < 0`. -/
def Vector2.lt {T : Type} [Ord T] (a b : Vector2 T) : Bool :=
  (Vector2.threeWay a b).isLT

/-- Defaulted `operator==` of `Vector2` (declared implicitly with the defaulted
`operator<=>`): member-wise `==` in declaration order. -/
def Vector2.eq {T : Type} [BEq T] (a b : Vector2 T) : Bool :=
  a.x == b.x && a.y == b.y

/-- Unary `operator-` of `Vector2`. -/
def Vector2.neg {T : Type} [Neg T] (v : Vector2 T) : Vector2 T :=
  ⟨-v.x, -v.y⟩

/-- `Vector2::square_length`. -/
def Vector2.square_length {T : Type} [Add T] [Mul T] (v : Vector2 T) : T :=
  v.x * v.x + v.y * v.y

/-- `Vector2::length`, with `std::sqrt` for the element type passed as `sqrt`. -/
def Vector2.length {T : Type} [Add T] [Mul T] (sqrt : T → T) (v : Vector2 T) : T :=
  sqrt (v.x * v.x + v.y * v.y)

/-- Binary `operator/(Vector2<T> const &vec, T const scalar)`. -/
def Vector2.divScalar {T : Type} [Div T] (vec : Vector2 T) (scalar : T) : Vector2 T :=
  ⟨vec.x / scalar, vec.y / scalar⟩

/-- `Vector2::normalized`: `*this / length()`. -/
def Vector2.normalized {T : Type} [Add T] [Mul T] [Div T] (sqrt : T → T) (v : Vector2 T) :
    Vector2 T :=
  Vector2.divScalar v (Vector2.length sqrt v)

/-- `Vector2::dot`. -/
def Vector2.dot {T : Type} [Add T] [Mul T] (v other : Vector2 T) : T :=
  v.x * other.x + v.y * other.y

/-- `Vector2::cross`. -/
def Vector2.cross {T : Type} [Sub T] [Mul T] (v other : Vector2 T) : T :=
  v.x * other.y - v.y * other.x

/-- `Vector2::angle`: `std::atan2(y, x)`, with `std::atan2` passed as `atan2`. -/
def Vector2.angle {T : Type} (atan2 : T → T → T) (v : Vector2 T) : T :=
  atan2 v.y v.x

/-! ## `Vector3<T>` -/

/-- Defaulted `operator<=>` of `Vector3`: three-way comparison of the members in declaration
order, returning the first result that is not "equal". -/
def Vector3.threeWay {T : Type} [Ord T] (a b : Vector3 T) : Ordering :=
  match compare a.x b.x with
  | .eq =>
    match compare a.y b.y with
    | .eq => compare a.z b.z
    | c => c
  | c => c

/-- Expression `a < b` on `Vector3`, rewritten by the language as `(a <=> b) < 0`. -/
def Vector3.lt {T : Type} [Ord T] (a b : Vector3 T) : Bool :=
  (Vector3.threeWay a b).isLT

/-- Defaulted `operator==` of `Vector3`: member-wise `==` in declaration order. -/
def Vector3.eq {T : Type} [BEq T] (a b : Vector3 T) : Bool :=
  a.x == b.x && a.y == b.y && a.z == b.z

/-- Unary `operator-` of `Vector3`. -/
def Vector3.neg {T : Type} [Neg T] (v : Vector3 T) : Vector3 T :=
  ⟨-v.x, -v.y, -v.z⟩

/-- `Vector3::square_length`. -/
def Vector3.square_length {T : Type} [Add T] [Mul T] (v : Vector3 T) : T :=
  v.x * v.x + v.y * v.y + v.z * v.z

/-- `Vector3::length`, with `std::sqrt` for the element type passed as `sqrt`. -/
def Vector3.length {T : Type} [Add T] [Mul T] (sqrt : T → T) (v : Vector3 T) : T :=
  sqrt (v.x * v.x + v.y * v.y + v.z * v.z)

/-- Binary `operator/(Vector3<T> const &vec, T const scalar)`. -/
def Vector3.divScalar {T : Type} [Div T] (vec : Vector3 T) (scalar : T) : Vector3 T :=
  ⟨vec.x / scalar, vec.y / scalar, vec.z / scalar⟩

/-- `Vector3::normalized`: `*this / length()`. -/
def Vector3.normalized {T : Type} [Add T] [Mul T] [Div T] (sqrt : T → T) (v : Vector3 T) :
    Vector3 T :=
  Vector3.divScalar v (Vector3.length sqrt v)

/-- `Vector3::dot`. -/
def Vector3.dot {T : Type} [Add T] [Mul T] (v other : Vector3 T) : T :=
  v.x * other.x + v.y * other.y + v.z * other.z

/-- `Vector3::cross`. -/
def Vector3.cross {T : Type} [Sub T] [Mul T] (v other : Vector3 T) : Vector3 T :=
  ⟨v.y * other.z - v.z * other.y, v.z * other.x - v.x * other.z,
    v.x * other.y - v.y * other.x⟩

/-! ## Conversion functions -/

/-- `Vector2_from_angle`: `{ std::cos(ang), std::sin(ang) }`. -/
def Vector2_from_angle {T : Type} (cos sin : T → T) (ang : T) : Vector2 T :=
  ⟨cos ang, sin ang⟩

/-- `PitchYaw_from_Vector3`: `{ std::asin(vec.y), std::atan2(vec.z, vec.x) }`. -/
def PitchYaw_from_Vector3 {T : Type} (asin : T → T) (atan2 : T → T → T) (vec : Vector3 T) :
    PitchYaw T :=
  ⟨asin vec.y, atan2 vec.z vec.x⟩

/-- `Vector3_from_PitchYaw`:
`{ cos(yaw) * cos(pitch), sin(pitch), sin(yaw) * cos(pitch) }`. -/
def Vector3_from_PitchYaw {T : Type} [Mul T] (cos sin : T → T) (pitch_yaw : PitchYaw T) :
    Vector3 T :=
  match pitch_yaw with
  | ⟨pitch, yaw⟩ => ⟨cos yaw * cos pitch, sin pitch, sin yaw * cos pitch⟩

/-! ## Unary plus and the binary operators -/

/-- Unary `operator+` of `Vector2`: `return *this`. -/
def Vector2.pos {T : Type} (v : Vector2 T) : Vector2 T :=
  v

/-- Binary `operator+(Vector2<T> const &left, Vector2<T> const &right)`. -/
def Vector2.add {T : Type} [Add T] (left right : Vector2 T) : Vector2 T :=
  ⟨left.x + right.x, left.y + right.y⟩

/-- Binary `operator-(Vector2<T> const &left, Vector2<T> const &right)`. -/
def Vector2.sub {T : Type} [Sub T] (left right : Vector2 T) : Vector2 T :=
  ⟨left.x - right.x, left.y - right.y⟩

/-- Binary `operator*(Vector2<T> const &left, Vector2<T> const &right)`. -/
def Vector2.mul {T : Type} [Mul T] (left right : Vector2 T) : Vector2 T :=
  ⟨left.x * right.x, left.y * right.y⟩

/-- Binary `operator/(Vector2<T> const &left, Vector2<T> const &right)`. -/
def Vector2.div {T : Type} [Div T] (left right : Vector2 T) : Vector2 T :=
  ⟨left.x / right.x, left.y / right.y⟩

/-- Binary `operator%(Vector2<T> const &left, Vector2<T> const &right)`. -/
def Vector2.mod {T : Type} [Mod T] (left right : Vector2 T) : Vector2 T :=
  ⟨left.x % right.x, left.y % right.y⟩

/-- Binary `operator*(Vector2<T> const &vec, T const scalar)`. -/
def Vector2.mulScalar {T : Type} [Mul T] (vec : Vector2 T) (scalar : T) : Vector2 T :=
  ⟨vec.x * scalar, vec.y * scalar⟩

/-- Unary `operator+` of `Vector3`: `return *this`. -/
def Vector3.pos {T : Type} (v : Vector3 T) : Vector3 T :=
  v

/-- Binary `operator+(Vector3<T> const &left, Vector3<T> const &right)`. -/
def Vector3.add {T : Type} [Add T] (left right : Vector3 T) : Vector3 T :=
  ⟨left.x + right.x, left.y + right.y, left.z + right.z⟩

/-- Binary `operator-(Vector3<T> const &left, Vector3<T> const &right)`. -/
def Vector3.sub {T : Type} [Sub T] (left right : Vector3 T) : Vector3 T :=
  ⟨left.x - right.x, left.y - right.y, left.z - right.z⟩

/-- Binary `operator*(Vector3<T> const &left, Vector3<T> const &right)`. -/
def Vector3.mul {T : Type} [Mul T] (left right : Vector3 T) : Vector3 T :=
  ⟨left.x * right.x, left.y * right.y, left.z * right.z⟩

/-- Binary `operator/(Vector3<T> const &left, Vector3<T> const &right)`. -/
def Vector3.div {T : Type} [Div T] (left right : Vector3 T) : Vector3 T :=
  ⟨left.x / right.x, left.y / right.y, left.z / right.z⟩

/-- Binary `operator%(Vector3<T> const &left, Vector3<T> const &right)`. -/
def Vector3.mod {T : Type} [Mod T] (left right : Vector3 T) : Vector3 T :=
  ⟨left.x % right.x, left.y % right.y, left.z % right.z⟩

/-- Binary `operator*(Vector3<T> const &vec, T const scalar)`. -/
def Vector3.mulScalar {T : Type} [Mul T] (vec : Vector3 T) (scalar : T) : Vector3 T :=
  ⟨vec.x * scalar, vec.y * scalar, vec.z * scalar⟩

/-! ## In-place operators

The compound operators and `normalize` mutate `*this` member by member and return a
reference to it.  Objects live in a memory addressed by references, so that the left and
the right operand of a compound operator may be the same object; each definition returns
the memory after its statements, in source order, together with the reference returned. -/

/-- Memory holding `Vector2<T>` objects, addressed by reference. -/
abbrev Store2 (T : Type) : Type := Nat → Vector2 T

/-- Memory holding `Vector3<T>` objects, addressed by reference. -/
abbrev Store3 (T : Type) : Type := Nat → Vector3 T

/-- Write `a` to member `x` of the `Vector2` object at `p`. -/
def Store2.setX {T : Type} (m : Store2 T) (p : Nat) (a : T) : Store2 T :=
  fun q => if q = p then ⟨a, (m q).y⟩ else m q

/-- Write `a` to member `y` of the `Vector2` object at `p`. -/
def Store2.setY {T : Type} (m : Store2 T) (p : Nat) (a : T) : Store2 T :=
  fun q => if q = p then ⟨(m q).x, a⟩ else m q

/-- Write `a` to member `x` of the `Vector3` object at `p`. -/
def Store3.setX {T : Type} (m : Store3 T) (p : Nat) (a : T) : Store3 T :=
  fun q => if q = p then ⟨a, (m q).y, (m q).z⟩ else m q

/-- Write `a` to member `y` of the `Vector3` object at `p`. -/
def Store3.setY {T : Type} (m : Store3 T) (p : Nat) (a : T) : Store3 T :=
  fun q => if q = p then ⟨(m q).x, a, (m q).z⟩ else m q

/-- Write `a` to member `z` of the `Vector3` object at `p`. -/
def Store3.setZ {T : Type} (m : Store3 T) (p : Nat) (a : T) : Store3 T :=
  fun q => if q = p then ⟨(m q).x, (m q).y, a⟩ else m q

/-- `Vector2::operator+=(Vector2 const &other)`:
`x += other.x; y += other.y; return *this;`. -/
def Vector2.addAssign {T : Type} [Add T] (m : Store2 T) (self other : Nat) :
    Store2 T × Nat :=
  let m1 := m.setX self ((m self).x + (m other).x)
  let m2 := m1.setY self ((m1 self).y + (m1 other).y)
  (m2, self)

/-- `Vector2::operator-=(Vector2 const &other)`:
`x -= other.x; y -= other.y; return *this;`. -/
def Vector2.subAssign {T : Type} [Sub T] (m : Store2 T) (self other : Nat) :
    Store2 T × Nat :=
  let m1 := m.setX self ((m self).x - (m other).x)
  let m2 := m1.setY self ((m1 self).y - (m1 other).y)
  (m2, self)

/-- `Vector2::operator*=(Vector2 const &other)`:
`x *= other.x; y *= other.y; return *this;`. -/
def Vector2.mulAssign {T : Type} [Mul T] (m : Store2 T) (self other : Nat) :
    Store2 T × Nat :=
  let m1 := m.setX self ((m self).x * (m other).x)
  let m2 := m1.setY self ((m1 self).y * (m1 other).y)
  (m2, self)

/-- `Vector2::operator/=(Vector2 const &other)`:
`x /= other.x; y /= other.y; return *this;`. -/
def Vector2.divAssign {T : Type} [Div T] (m : Store2 T) (self other : Nat) :
    Store2 T × Nat :=
  let m1 := m.setX self ((m self).x / (m other).x)
  let m2 := m1.setY self ((m1 self).y / (m1 other).y)
  (m2, self)

/-- `Vector2::operator%=(Vector2 const &other)`:
`x %= other.x; y %= other.y; return *this;`. -/
def Vector2.modAssign {T : Type} [Mod T] (m : Store2 T) (self other : Nat) :
    Store2 T × Nat :=
  let m1 := m.setX self ((m self).x % (m other).x)
  let m2 := m1.setY self ((m1 self).y % (m1 other).y)
  (m2, self)

/-- `Vector2::operator*=(T const scalar)`: `x *= scalar; y *= scalar; return *this;`.
The scalar is passed by value. -/
def Vector2.mulAssignScalar {T : Type} [Mul T] (m : Store2 T) (self : Nat) (scalar : T) :
    Store2 T × Nat :=
  let m1 := m.setX self ((m self).x * scalar)
  let m2 := m1.setY self ((m1 self).y * scalar)
  (m2, self)

/-- `Vector2::operator/=(T const scalar)`: `x /= scalar; y /= scalar; return *this;`.
The scalar is passed by value. -/
def Vector2.divAssignScalar {T : Type} [Div T] (m : Store2 T) (self : Nat) (scalar : T) :
    Store2 T × Nat :=
  let m1 := m.setX self ((m self).x / scalar)
  let m2 := m1.setY self ((m1 self).y / scalar)
  (m2, self)

/-- `Vector2::normalize`: `return *this /= length();`. -/
def Vector2.normalize {T : Type} [Add T] [Mul T] [Div T] (sqrt : T → T) (m : Store2 T)
    (self : Nat) : Store2 T × Nat :=
  Vector2.divAssignScalar m self (Vector2.length sqrt (m self))

/-- `Vector3::operator+=(Vector3 const &other)`:
`x += other.x; y += other.y; z += other.z; return *this;`. -/
def Vector3.addAssign {T : Type} [Add T] (m : Store3 T) (self other : Nat) :
    Store3 T × Nat :=
  let m1 := m.setX self ((m self).x + (m other).x)
  let m2 := m1.setY self ((m1 self).y + (m1 other).y)
  let m3 := m2.setZ self ((m2 self).z + (m2 other).z)
  (m3, self)

/-- `Vector3::operator-=(Vector3 const &other)`:
`x -= other.x; y -= other.y; z -= other.z; return *this;`. -/
def Vector3.subAssign {T : Type} [Sub T] (m : Store3 T) (self other : Nat) :
    Store3 T × Nat :=
  let m1 := m.setX self ((m self).x - (m other).x)
  let m2 := m1.setY self ((m1 self).y - (m1 other).y)
  let m3 := m2.setZ self ((m2 self).z - (m2 other).z)
  (m3, self)

/-- `Vector3::operator*=(Vector3 const &other)`:
`x *= other.x; y *= other.y; z *= other.z; return *this;`. -/
def Vector3.mulAssign {T : Type} [Mul T] (m : Store3 T) (self other : Nat) :
    Store3 T × Nat :=
  let m1 := m.setX self ((m self).x * (m other).x)
  let m2 := m1.setY self ((m1 self).y * (m1 other).y)
  let m3 := m2.setZ self ((m2 self).z * (m2 other).z)
  (m3, self)

/-- `Vector3::operator/=(Vector3 const &other)`:
`x /= other.x; y /= other.y; z /= other.z; return *this;`. -/
def Vector3.divAssign {T : Type} [Div T] (m : Store3 T) (self other : Nat) :
    Store3 T × Nat :=
  let m1 := m.setX self ((m self).x / (m other).x)
  let m2 := m1.setY self ((m1 self).y / (m1 other).y)
  let m3 := m2.setZ self ((m2 self).z / (m2 other).z)
  (m3, self)

/-- `Vector3::operator%=(Vector3 const &other)`:
`x %= other.x; y %= other.y; z %= other.z; return *this;`. -/
def Vector3.modAssign {T : Type} [Mod T] (m : Store3 T) (self other : Nat) :
    Store3 T × Nat :=
  let m1 := m.setX self ((m self).x % (m other).x)
  let m2 := m1.setY self ((m1 self).y % (m1 other).y)
  let m3 := m2.setZ self ((m2 self).z % (m2 other).z)
  (m3, self)

/-- `Vector3::operator*=(T const scalar)`:
`x *= scalar; y *= scalar; z *= scalar; return *this;`.  The scalar is passed by value. -/
def Vector3.mulAssignScalar {T : Type} [Mul T] (m : Store3 T) (self : Nat) (scalar : T) :
    Store3 T × Nat :=
  let m1 := m.setX self ((m self).x * scalar)
  let m2 := m1.setY self ((m1 self).y * scalar)
  let m3 := m2.setZ self ((m2 self).z * scalar)
  (m3, self)

/-- `Vector3::operator/=(T const scalar)`:
`x /= scalar; y /= scalar; z /= scalar; return *this;`.  The scalar is passed by value. -/
def Vector3.divAssignScalar {T : Type} [Div T] (m : Store3 T) (self : Nat) (scalar : T) :
    Store3 T × Nat :=
  let m1 := m.setX self ((m self).x / scalar)
  let m2 := m1.setY self ((m1 self).y / scalar)
  let m3 := m2.setZ self ((m2 self).z / scalar)
  (m3, self)

/-- `Vector3::normalize`: `return *this /= length();`. -/
def Vector3.normalize {T : Type} [Add T] [Mul T] [Div T] (sqrt : T → T) (m : Store3 T)
    (self : Nat) : Store3 T × Nat :=
  Vector3.divAssignScalar m self (Vector3.length sqrt (m self))

/-! ### What "agrees with the pure counterpart" means

Stated from the specification: after the in-place operation the object it was called on
holds the value the pure operation computes from the old values, the reference returned is
that object, and no other object has changed. -/

/-- An in-place operator taking another vector by reference agrees with the pure binary
operator `pure`. -/
def AgreesBinary (V : Type) (inplace : (Nat → V) → Nat → Nat → (Nat → V) × Nat)
    (pure : V → V → V) : Prop :=
  ∀ (m : Nat → V) (self other : Nat),
    (inplace m self other).2 = self ∧
    (inplace m self other).1 self = pure (m self) (m other) ∧
    ∀ r : Nat, r ≠ self → (inplace m self other).1 r = m r

/-- An in-place operator taking a scalar by value agrees with the pure operator `pure`. -/
def AgreesScalar (V : Type) {T : Type} (inplace : (Nat → V) → Nat → T → (Nat → V) × Nat)
    (pure : V → T → V) : Prop :=
  ∀ (m : Nat → V) (self : Nat) (scalar : T),
    (inplace m self scalar).2 = self ∧
    (inplace m self scalar).1 self = pure (m self) scalar ∧
    ∀ r : Nat, r ≠ self → (inplace m self scalar).1 r = m r

/-- An in-place operation without operand agrees with the pure operation `pure`. -/
def AgreesUnary (V : Type) (inplace : (Nat → V) → Nat → (Nat → V) × Nat)
    (pure : V → V) : Prop :=
  ∀ (m : Nat → V) (self : Nat),
    (inplace m self).2 = self ∧
    (inplace m self).1 self = pure (m self) ∧
    ∀ r : Nat, r ≠ self → (inplace m self).1 r = m r

/-! ## The element type `int`

The built-in operators of a 32-bit two's complement `int`.  An evaluation whose behaviour
the language leaves undefined (signed overflow, division or remainder by zero,
`INT_MIN / -1` and `INT_MIN % -1`, conversion to `int` of a floating value that is not
representable) yields `undef`, and every operator with an `undef` operand yields `undef`:
the compiled code may trap or return anything there. -/

/-- The constant `INT_MIN` of a 32-bit `int`. -/
def INT_MIN : Int := -2147483648

/-- The constant `INT_MAX` of a 32-bit `int`. -/
def INT_MAX : Int := 2147483647

/-- Outcome of evaluating an expression of type `int`: a value `ok n`, or `undef` when the
evaluation has undefined behaviour. -/
inductive CInt where
  | undef : CInt
  | ok (val : Int) : CInt
deriving DecidableEq

/-- A mathematical result as an `int`: defined only when it is representable. -/
def CInt.ofInt (n : Int) : CInt :=
  if INT_MIN ≤ n ∧ n ≤ INT_MAX then CInt.ok n else CInt.undef

/-- The outcome is a value of type `int`: defined and within `INT_MIN ..= INT_MAX`. -/
def CInt.IsValue (a : CInt) : Prop :=
  match a with
  | CInt.ok n => INT_MIN ≤ n ∧ n ≤ INT_MAX
  | CInt.undef => False

/-- Whether an outcome is a value can be computed. -/
instance (a : CInt) : Decidable a.IsValue :=
  match a with
  | CInt.ok n => inferInstanceAs (Decidable (INT_MIN ≤ n ∧ n ≤ INT_MAX))
  | CInt.undef => isFalse (fun h => h)

/-- The integer a defined outcome holds (0 for `undef`, which callers exclude). -/
def CInt.toInt (a : CInt) : Int :=
  match a with
  | CInt.ok n => n
  | CInt.undef => 0

/-- Built-in `+` on `int`: undefined on overflow. -/
def CInt.add (a b : CInt) : CInt :=
  match a, b with
  | CInt.ok x, CInt.ok y => CInt.ofInt (x + y)
  | _, _ => CInt.undef

/-- Built-in binary `-` on `int`: undefined on overflow. -/
def CInt.sub (a b : CInt) : CInt :=
  match a, b with
  | CInt.ok x, CInt.ok y => CInt.ofInt (x - y)
  | _, _ => CInt.undef

/-- Built-in `*` on `int`: undefined on overflow. -/
def CInt.mul (a b : CInt) : CInt :=
  match a, b with
  | CInt.ok x, CInt.ok y => CInt.ofInt (x * y)
  | _, _ => CInt.undef

/-- Built-in unary `-` on `int`: undefined for `INT_MIN`. -/
def CInt.neg (a : CInt) : CInt :=
  match a with
  | CInt.ok x => CInt.ofInt (-x)
  | CInt.undef => CInt.undef

/-- Built-in `/` on `int`: the quotient truncated toward zero; undefined for a zero divisor
and when the quotient is not representable (`INT_MIN / -1`). -/
def CInt.div (a b : CInt) : CInt :=
  match a, b with
  | CInt.ok x, CInt.ok y => if y = 0 then CInt.undef else CInt.ofInt (Int.tdiv x y)
  | _, _ => CInt.undef

/-- Built-in `%` on `int`: the remainder of the truncating division; undefined for a zero
divisor and when the quotient `a / b` is not representable (`INT_MIN % -1`). -/
def CInt.mod (a b : CInt) : CInt :=
  match a, b with
  | CInt.ok x, CInt.ok y =>
    if y = 0 then CInt.undef
    else
      match CInt.ofInt (Int.tdiv x y) with
      | CInt.ok _ => CInt.ofInt (Int.tmod x y)
      | CInt.undef => CInt.undef
  | _, _ => CInt.undef

/-- Integer literals of type `int`. -/
instance (n : Nat) : OfNat CInt n := ⟨CInt.ofInt n⟩

/-- Operator `+` of the element type `int`. -/
instance : Add CInt := ⟨CInt.add⟩

/-- Binary operator `-` of the element type `int`. -/
instance : Sub CInt := ⟨CInt.sub⟩

/-- Operator `*` of the element type `int`. -/
instance : Mul CInt := ⟨CInt.mul⟩

/-- Unary operator `-` of the element type `int`. -/
instance : Neg CInt := ⟨CInt.neg⟩

/-- Operator `/` of the element type `int`. -/
instance : Div CInt := ⟨CInt.div⟩

/-- Operator `%` of the element type `int`. -/
instance : Mod CInt := ⟨CInt.mod⟩

/-- The call `std::sqrt(a)` for `a` of type `int`, converted back to `int` by the return
type `T` of `length()`.  The argument is converted to `double` exactly; for `a ≥ 0` the
correctly rounded square root truncates to the integer square root of `a`; for `a < 0` the
result is NaN, whose conversion to `int` is undefined. -/
def CInt.sqrt (a : CInt) : CInt :=
  match a with
  | CInt.ok n => if 0 ≤ n then CInt.ofInt (Int.sqrt n) else CInt.undef
  | CInt.undef => CInt.undef

/-- Operands for which `a / b` and `a % b` have defined behaviour: both are values of type
`int`, the divisor is not zero, and the pair is not `INT_MIN`, `-1`. -/
def CInt.DivDefined (a b : CInt) : Prop :=
  a.IsValue ∧ b.IsValue ∧ b.toInt ≠ 0 ∧ ¬ (a.toInt = INT_MIN ∧ b.toInt = -1)

/-- Whether a division is defined can be computed. -/
instance (a b : CInt) : Decidable (CInt.DivDefined a b) :=
  inferInstanceAs (Decidable
    (a.IsValue ∧ b.IsValue ∧ b.toInt ≠ 0 ∧ ¬ (a.toInt = INT_MIN ∧ b.toInt = -1)))

/-! ## Auxiliary facts about the real-number model -/

/-- The complex number with real part `cos a` and imaginary part `sin a`, in the form the
library lemmas on `Complex.arg` expect. -/
theorem mk_cos_sin_eq (a : ℝ) :
    (⟨Real.cos a, Real.sin a⟩ : ℂ) = Complex.cos a + Complex.sin a * Complex.I := by
  apply Complex.ext <;> simp [← Complex.ofReal_cos, ← Complex.ofReal_sin]

/-- The modulus of `x + i*y` as a real square root. -/
theorem abs_mk_eq (x y : ℝ) : Complex.abs ⟨x, y⟩ = Real.sqrt (x * x + y * y) := by
  simp [Complex.abs_apply, Complex.normSq_apply]

/-! ## Theorems -/

/-- C3: for every real angle `a` with `-π < a ≤ π`, `Vector2_from_angle(a).angle()` equals
`a`, where `atan2(y, x)` is the principal argument of `x + i*y`. -/
theorem angle_from_angle_roundtrip (a : ℝ) (ha : a ∈ Set.Ioc (-Real.pi) Real.pi) :
    Vector2.angle (fun y x : ℝ => Complex.arg ⟨x, y⟩)
      (Vector2_from_angle Real.cos Real.sin a) = a := by
  simp only [Vector2.angle, Vector2_from_angle]
  rw [mk_cos_sin_eq]
  exact Complex.arg_cos_add_sin_mul_I ha

/-- Witness of C3 at the angle `a = π`, the closed end of the branch. -/
theorem angle_from_angle_roundtrip_witness :
    Real.pi ∈ Set.Ioc (-Real.pi) Real.pi ∧
    Vector2.angle (fun y x : ℝ => Complex.arg ⟨x, y⟩)
      (Vector2_from_angle Real.cos Real.sin Real.pi) = Real.pi :=
  have h : Real.pi ∈ Set.Ioc (-Real.pi) Real.pi :=
    ⟨by linarith [Real.pi_pos], le_refl _⟩
  ⟨h, angle_from_angle_roundtrip Real.pi h⟩

/-- C4: for every real `Vector2` `v` with `x*x + y*y == 1`, `v.angle()` lies in `(-π, π]` and
`Vector2_from_angle(v.angle())` equals `v`. -/
theorem from_angle_angle_unit (v : Vector2 ℝ) (h : v.x * v.x + v.y * v.y = 1) :
    Vector2.angle (fun y x : ℝ => Complex.arg ⟨x, y⟩) v ∈ Set.Ioc (-Real.pi) Real.pi ∧
    Vector2_from_angle Real.cos Real.sin
      (Vector2.angle (fun y x : ℝ => Complex.arg ⟨x, y⟩) v) = v := by
  obtain ⟨x, y⟩ := v
  simp only at h
  have habs : Complex.abs ⟨x, y⟩ = 1 := by rw [abs_mk_eq, h, Real.sqrt_one]
  have hc := Complex.abs_mul_cos_arg ⟨x, y⟩
  have hs := Complex.abs_mul_sin_arg ⟨x, y⟩
  rw [habs, one_mul] at hc hs
  refine ⟨Complex.arg_mem_Ioc _, ?_⟩
  simp only [Vector2.angle, Vector2_from_angle, hc, hs]

/-- Witness of C4 at the unit vector `(0, -1)`. -/
theorem from_angle_angle_unit_witness :
    (0 : ℝ) * 0 + (-1) * (-1) = 1 ∧
    Vector2.angle (fun y x : ℝ => Complex.arg ⟨x, y⟩) ⟨0, -1⟩ ∈ Set.Ioc (-Real.pi) Real.pi ∧
    Vector2_from_angle Real.cos Real.sin
      (Vector2.angle (fun y x : ℝ => Complex.arg ⟨x, y⟩) ⟨0, -1⟩) = ⟨0, -1⟩ :=
  ⟨by norm_num, from_angle_angle_unit ⟨0, -1⟩ (by norm_num)⟩

/-- C5: for every real pitch and yaw, `Vector3_from_PitchYaw({pitch, yaw})` is a unit
vector: its `square_length()` is 1 and its `length()` is 1. -/
theorem from_pitchyaw_unit (pitch yaw : ℝ) :
    Vector3.square_length (Vector3_from_PitchYaw Real.cos Real.sin ⟨pitch, yaw⟩) = 1 ∧
    Vector3.length Real.sqrt (Vector3_from_PitchYaw Real.cos Real.sin ⟨pitch, yaw⟩) = 1 := by
  have key : Real.cos yaw * Real.cos pitch * (Real.cos yaw * Real.cos pitch)
      + Real.sin pitch * Real.sin pitch
      + Real.sin yaw * Real.cos pitch * (Real.sin yaw * Real.cos pitch) = 1 := by
    have h1 := Real.sin_sq_add_cos_sq pitch
    have h2 := Real.sin_sq_add_cos_sq yaw
    nlinarith [h1, h2]
  constructor
  · simpa only [Vector3.square_length, Vector3_from_PitchYaw] using key
  · simp only [Vector3.length, Vector3_from_PitchYaw, key, Real.sqrt_one]

/-- C2: for every real `Vector3` `v` with `x*x + y*y + z*z == 1`,
`Vector3_from_PitchYaw(PitchYaw_from_Vector3(v))` equals `v`, the poles
`v.x == 0 && v.z == 0` included. -/
theorem from_pitchyaw_of_unit (v : Vector3 ℝ) (h : v.x * v.x + v.y * v.y + v.z * v.z = 1) :
    Vector3_from_PitchYaw Real.cos Real.sin
      (PitchYaw_from_Vector3 Real.arcsin (fun y x : ℝ => Complex.arg ⟨x, y⟩) v) = v := by
  obtain ⟨x, y, z⟩ := v
  simp only at h
  have hy1 : -1 ≤ y := by nlinarith [mul_self_nonneg x, mul_self_nonneg z]
  have hy2 : y ≤ 1 := by nlinarith [mul_self_nonneg x, mul_self_nonneg z]
  have hsin : Real.sin (Real.arcsin y) = y := Real.sin_arcsin hy1 hy2
  have hcos : Real.cos (Real.arcsin y) = Complex.abs ⟨x, z⟩ := by
    rw [Real.cos_arcsin, abs_mk_eq]
    congr 1
    linarith
  have hc := Complex.abs_mul_cos_arg ⟨x, z⟩
  have hs := Complex.abs_mul_sin_arg ⟨x, z⟩
  simp only at hc hs
  simp only [PitchYaw_from_Vector3, Vector3_from_PitchYaw, hsin, hcos]
  rw [mul_comm (Real.cos _), mul_comm (Real.sin _), hc, hs]

/-- Witness of C2 at the pole `(0, 1, 0)`, where `v.x == 0` and `v.z == 0`. -/
theorem from_pitchyaw_of_unit_witness :
    (0 : ℝ) * 0 + 1 * 1 + 0 * 0 = 1 ∧
    Vector3_from_PitchYaw Real.cos Real.sin
      (PitchYaw_from_Vector3 Real.arcsin (fun y x : ℝ => Complex.arg ⟨x, y⟩) ⟨0, 1, 0⟩)
        = ⟨0, 1, 0⟩ :=
  ⟨by norm_num, from_pitchyaw_of_unit ⟨0, 1, 0⟩ (by norm_num)⟩

/-- C6: for every nonzero real vector `v` (`Vector2` and `Vector3`), `v.normalized()` is `v`
divided component-wise by `v.length()`, and `v.normalized().square_length()` is 1. -/
theorem normalized_unit (v : Vector2 ℝ) (w : Vector3 ℝ) (hv : v ≠ ⟨0, 0⟩)
    (hw : w ≠ ⟨0, 0, 0⟩) :
    (Vector2.normalized Real.sqrt v
        = ⟨v.x / Vector2.length Real.sqrt v, v.y / Vector2.length Real.sqrt v⟩ ∧
      Vector2.square_length (Vector2.normalized Real.sqrt v) = 1) ∧
    (Vector3.normalized Real.sqrt w
        = ⟨w.x / Vector3.length Real.sqrt w, w.y / Vector3.length Real.sqrt w,
            w.z / Vector3.length Real.sqrt w⟩ ∧
      Vector3.square_length (Vector3.normalized Real.sqrt w) = 1) := by
  obtain ⟨x, y⟩ := v
  obtain ⟨a, b, c⟩ := w
  refine ⟨⟨rfl, ?_⟩, ⟨rfl, ?_⟩⟩
  · have hpos : 0 < x * x + y * y := by
      by_contra hn
      have hx : x = 0 := by nlinarith [mul_self_nonneg x, mul_self_nonneg y]
      have hy : y = 0 := by nlinarith [mul_self_nonneg x, mul_self_nonneg y]
      exact hv (by rw [hx, hy])
    have hne : Real.sqrt (x * x + y * y) ≠ 0 := ne_of_gt (Real.sqrt_pos.mpr hpos)
    have hsq := Real.mul_self_sqrt hpos.le
    simp only [Vector2.square_length, Vector2.normalized, Vector2.divScalar, Vector2.length]
    field_simp
  · have hpos : 0 < a * a + b * b + c * c := by
      by_contra hn
      have ha : a = 0 := by
        nlinarith [mul_self_nonneg a, mul_self_nonneg b, mul_self_nonneg c]
      have hb : b = 0 := by
        nlinarith [mul_self_nonneg a, mul_self_nonneg b, mul_self_nonneg c]
      have hc : c = 0 := by
        nlinarith [mul_self_nonneg a, mul_self_nonneg b, mul_self_nonneg c]
      exact hw (by rw [ha, hb, hc])
    have hne : Real.sqrt (a * a + b * b + c * c) ≠ 0 := ne_of_gt (Real.sqrt_pos.mpr hpos)
    have hsq := Real.mul_self_sqrt hpos.le
    simp only [Vector3.square_length, Vector3.normalized, Vector3.divScalar, Vector3.length]
    field_simp

/-- Witness of C6 at the nonzero vectors `(3, 4)` and `(1, 2, 2)`. -/
theorem normalized_unit_witness :
    (⟨3, 4⟩ : Vector2 ℝ) ≠ ⟨0, 0⟩ ∧ (⟨1, 2, 2⟩ : Vector3 ℝ) ≠ ⟨0, 0, 0⟩ ∧
    (Vector2.normalized Real.sqrt (⟨3, 4⟩ : Vector2 ℝ)
        = ⟨3 / Vector2.length Real.sqrt ⟨3, 4⟩, 4 / Vector2.length Real.sqrt ⟨3, 4⟩⟩ ∧
      Vector2.square_length (Vector2.normalized Real.sqrt (⟨3, 4⟩ : Vector2 ℝ)) = 1) ∧
    (Vector3.normalized Real.sqrt (⟨1, 2, 2⟩ : Vector3 ℝ)
        = ⟨1 / Vector3.length Real.sqrt ⟨1, 2, 2⟩, 2 / Vector3.length Real.sqrt ⟨1, 2, 2⟩,
            2 / Vector3.length Real.sqrt ⟨1, 2, 2⟩⟩ ∧
      Vector3.square_length (Vector3.normalized Real.sqrt (⟨1, 2, 2⟩ : Vector3 ℝ)) = 1) :=
  have h2 : (⟨3, 4⟩ : Vector2 ℝ) ≠ ⟨0, 0⟩ := by
    intro h
    have hx : (3 : ℝ) = 0 := congrArg Vector2.x h
    norm_num at hx
  have h3 : (⟨1, 2, 2⟩ : Vector3 ℝ) ≠ ⟨0, 0, 0⟩ := by
    intro h
    have hx : (1 : ℝ) = 0 := congrArg Vector3.x h
    norm_num at hx
  ⟨h2, h3, normalized_unit ⟨3, 4⟩ ⟨1, 2, 2⟩ h2 h3⟩

/-- C7: comparison of vectors is the lexicographic comparison of the components in
declaration order, for every totally ordered element type: `v < w` iff `v.x < w.x`, or
`v.x == w.x` and `v.y < w.y`, or `v.x == w.x`, `v.y == w.y` and `v.z < w.z`; `v == w` iff all
components are equal; likewise for `Vector2` over `(x, y)`; and `Vector2(1,2) == Vector2(1,2)`,
`Vector2(1,2) < Vector2(1,3)`. -/
theorem comparison_lexicographic {T : Type} [LinearOrder T] :
    (∀ v w : Vector3 T, Vector3.lt v w = true ↔
      (v.x < w.x ∨ (v.x = w.x ∧ v.y < w.y) ∨ (v.x = w.x ∧ v.y = w.y ∧ v.z < w.z))) ∧
    (∀ v w : Vector3 T, Vector3.eq v w = true ↔ (v.x = w.x ∧ v.y = w.y ∧ v.z = w.z)) ∧
    (∀ v w : Vector2 T, Vector2.lt v w = true ↔ (v.x < w.x ∨ (v.x = w.x ∧ v.y < w.y))) ∧
    (∀ v w : Vector2 T, Vector2.eq v w = true ↔ (v.x = w.x ∧ v.y = w.y)) ∧
    Vector2.eq (⟨1, 2⟩ : Vector2 ℤ) ⟨1, 2⟩ = true ∧
    Vector2.lt (⟨1, 2⟩ : Vector2 ℤ) ⟨1, 3⟩ = true := by
  refine ⟨?_, ?_, ?_, ?_, by decide, by decide⟩
  · intro v w
    simp only [Vector3.lt, Vector3.threeWay]
    cases hx : compare v.x w.x with
    | lt =>
      have h := compare_lt_iff_lt.mp hx
      simp [Ordering.isLT, h]
    | eq =>
      have h := compare_eq_iff_eq.mp hx
      cases hy : compare v.y w.y with
      | lt =>
        have k := compare_lt_iff_lt.mp hy
        simp [Ordering.isLT, h, k]
      | eq =>
        have k := compare_eq_iff_eq.mp hy
        cases hz : compare v.z w.z with
        | lt =>
          have l := compare_lt_iff_lt.mp hz
          simp [Ordering.isLT, h, k, l]
        | eq =>
          have l := compare_eq_iff_eq.mp hz
          simp [Ordering.isLT, h, k, l]
        | gt =>
          have l := compare_gt_iff_gt.mp hz
          simp [Ordering.isLT, h, k, l.not_lt]
      | gt =>
        have k := compare_gt_iff_gt.mp hy
        simp [Ordering.isLT, h, k.not_lt, k.ne']
    | gt =>
      have h := compare_gt_iff_gt.mp hx
      simp [Ordering.isLT, h.not_lt, h.ne']
  · intro v w
    simp [Vector3.eq, and_assoc]
  · intro v w
    simp only [Vector2.lt, Vector2.threeWay]
    cases hx : compare v.x w.x with
    | lt =>
      have h := compare_lt_iff_lt.mp hx
      simp [Ordering.isLT, h]
    | eq =>
      have h := compare_eq_iff_eq.mp hx
      cases hy : compare v.y w.y with
      | lt =>
        have k := compare_lt_iff_lt.mp hy
        simp [Ordering.isLT, h, k]
      | eq =>
        have k := compare_eq_iff_eq.mp hy
        simp [Ordering.isLT, h, k]
      | gt =>
        have k := compare_gt_iff_gt.mp hy
        simp [Ordering.isLT, h, k.not_lt]
    | gt =>
      have h := compare_gt_iff_gt.mp hx
      simp [Ordering.isLT, h.not_lt, h.ne']
  · intro v w
    simp [Vector2.eq]

/-- C9: the 3D cross product is perpendicular to both operands: over a commutative ring,
`v.dot(v.cross(w)) == 0` and `w.dot(v.cross(w)) == 0`. -/
theorem cross_perpendicular {T : Type} [CommRing T] (v w : Vector3 T) :
    Vector3.dot v (Vector3.cross v w) = 0 ∧ Vector3.dot w (Vector3.cross v w) = 0 := by
  constructor <;> simp only [Vector3.dot, Vector3.cross] <;> ring

/-- C10: the cross product is anticommutative over a commutative ring: for `Vector3`,
`v.cross(w) == -(w.cross(v))` as vectors; for `Vector2`, `v.cross(w) == -(w.cross(v))` as
scalars. -/
theorem cross_anticommutative {T : Type} [CommRing T] :
    (∀ v w : Vector3 T, Vector3.cross v w = Vector3.neg (Vector3.cross w v)) ∧
    (∀ v w : Vector2 T, Vector2.cross v w = -(Vector2.cross w v)) := by
  constructor
  · intro v w
    simp only [Vector3.cross, Vector3.neg, Vector3.mk.injEq]
    refine ⟨?_, ?_, ?_⟩ <;> ring
  · intro v w
    simp only [Vector2.cross]
    ring

/-- C11: for every vector `v` (`Vector2` and `Vector3`, element type an additive group),
`v + (-v)` is the zero vector and `+v` equals `v`. -/
theorem add_neg_self_and_pos {T : Type} [AddGroup T] (v : Vector2 T) (w : Vector3 T) :
    (Vector2.add v (Vector2.neg v) = ⟨0, 0⟩ ∧ Vector2.pos v = v) ∧
    (Vector3.add w (Vector3.neg w) = ⟨0, 0, 0⟩ ∧ Vector3.pos w = w) := by
  refine ⟨⟨?_, rfl⟩, ⟨?_, rfl⟩⟩
  · simp only [Vector2.add, Vector2.neg, add_neg_cancel]
  · simp only [Vector3.add, Vector3.neg, add_neg_cancel]

/-- C12: vector addition is associative and commutative, for `Vector2` and `Vector3` over an
element type with exact (associative, commutative) addition. -/
theorem add_assoc_comm {T : Type} [AddCommSemigroup T] :
    (∀ u v w : Vector2 T,
      Vector2.add (Vector2.add v w) u = Vector2.add v (Vector2.add w u) ∧
      Vector2.add v w = Vector2.add w v) ∧
    (∀ u v w : Vector3 T,
      Vector3.add (Vector3.add v w) u = Vector3.add v (Vector3.add w u) ∧
      Vector3.add v w = Vector3.add w v) := by
  constructor
  · intro u v w
    simp only [Vector2.add, Vector2.mk.injEq]
    exact ⟨⟨add_assoc _ _ _, add_assoc _ _ _⟩, ⟨add_comm _ _, add_comm _ _⟩⟩
  · intro u v w
    simp only [Vector3.add, Vector3.mk.injEq]
    exact ⟨⟨add_assoc _ _ _, add_assoc _ _ _, add_assoc _ _ _⟩,
      ⟨add_comm _ _, add_comm _ _, add_comm _ _⟩⟩

/-- C13: the dot product is symmetric, `v.dot(w) == w.dot(v)`, and is the sum of the pairwise
component products, for `Vector2` and `Vector3` over a commutative semiring. -/
theorem dot_symmetric {T : Type} [CommSemiring T] :
    (∀ v w : Vector2 T, Vector2.dot v w = Vector2.dot w v ∧
      Vector2.dot v w = v.x * w.x + v.y * w.y) ∧
    (∀ v w : Vector3 T, Vector3.dot v w = Vector3.dot w v ∧
      Vector3.dot v w = v.x * w.x + v.y * w.y + v.z * w.z) := by
  constructor
  · intro v w
    refine ⟨?_, rfl⟩
    simp only [Vector2.dot]
    ring
  · intro v w
    refine ⟨?_, rfl⟩
    simp only [Vector3.dot]
    ring

/-- C14: axis convention of `Vector3_from_PitchYaw` over the reals: pitch 0, yaw 0 gives
`(1,0,0)`; pitch 0, yaw `π/2` gives `(0,0,1)`; pitch `π/2`, yaw 0 gives `(0,1,0)`. -/
theorem from_pitchyaw_axes :
    Vector3_from_PitchYaw Real.cos Real.sin ⟨0, 0⟩ = ⟨1, 0, 0⟩ ∧
    Vector3_from_PitchYaw Real.cos Real.sin ⟨0, Real.pi / 2⟩ = ⟨0, 0, 1⟩ ∧
    Vector3_from_PitchYaw Real.cos Real.sin ⟨Real.pi / 2, 0⟩ = ⟨0, 1, 0⟩ := by
  refine ⟨?_, ?_, ?_⟩ <;>
    simp [Vector3_from_PitchYaw, Real.cos_pi_div_two, Real.sin_pi_div_two]

/-- C16: `length()` is the Euclidean norm over the reals: it is the non-negative square root
of `square_length()`, so `length() * length() == square_length()`, where `square_length()`
is the sum of the squared components; and `Vector2(3,4).length() == 5`,
`Vector2(3,4).square_length() == 25`. -/
theorem length_euclidean (v : Vector2 ℝ) (w : Vector3 ℝ) :
    (Vector2.square_length v = v.x * v.x + v.y * v.y ∧
      Vector2.length Real.sqrt v = Real.sqrt (Vector2.square_length v) ∧
      0 ≤ Vector2.length Real.sqrt v ∧
      Vector2.length Real.sqrt v * Vector2.length Real.sqrt v = Vector2.square_length v) ∧
    (Vector3.square_length w = w.x * w.x + w.y * w.y + w.z * w.z ∧
      Vector3.length Real.sqrt w = Real.sqrt (Vector3.square_length w) ∧
      0 ≤ Vector3.length Real.sqrt w ∧
      Vector3.length Real.sqrt w * Vector3.length Real.sqrt w = Vector3.square_length w) ∧
    Vector2.length Real.sqrt (⟨3, 4⟩ : Vector2 ℝ) = 5 ∧
    Vector2.square_length (⟨3, 4⟩ : Vector2 ℝ) = 25 := by
  have h2 : 0 ≤ v.x * v.x + v.y * v.y := by
    nlinarith [mul_self_nonneg v.x, mul_self_nonneg v.y]
  have h3 : 0 ≤ w.x * w.x + w.y * w.y + w.z * w.z := by
    nlinarith [mul_self_nonneg w.x, mul_self_nonneg w.y, mul_self_nonneg w.z]
  refine ⟨⟨rfl, rfl, Real.sqrt_nonneg _, ?_⟩, ⟨rfl, rfl, Real.sqrt_nonneg _, ?_⟩, ?_, ?_⟩
  · simp only [Vector2.length, Vector2.square_length]
    exact Real.mul_self_sqrt h2
  · simp only [Vector3.length, Vector3.square_length]
    exact Real.mul_self_sqrt h3
  · simp only [Vector2.length]
    have h25 : (3 : ℝ) * 3 + 4 * 4 = 5 * 5 := by norm_num
    rw [h25]
    exact Real.sqrt_mul_self (by norm_num)
  · simp only [Vector2.square_length]
    norm_num

/-- C17: the 3D cross product is right-handed on the standard basis, `x × y = z`,
`y × z = x`, `z × x = y`, and in general
`v.cross(w) == (v.y*w.z - v.z*w.y, v.z*w.x - v.x*w.z, v.x*w.y - v.y*w.x)`. -/
theorem cross_right_handed {T : Type} [Ring T] :
    Vector3.cross (⟨1, 0, 0⟩ : Vector3 T) ⟨0, 1, 0⟩ = ⟨0, 0, 1⟩ ∧
    Vector3.cross (⟨0, 1, 0⟩ : Vector3 T) ⟨0, 0, 1⟩ = ⟨1, 0, 0⟩ ∧
    Vector3.cross (⟨0, 0, 1⟩ : Vector3 T) ⟨1, 0, 0⟩ = ⟨0, 1, 0⟩ ∧
    (∀ v w : Vector3 T, Vector3.cross v w
      = ⟨v.y * w.z - v.z * w.y, v.z * w.x - v.x * w.z, v.x * w.y - v.y * w.x⟩) := by
  refine ⟨?_, ?_, ?_, fun _ _ => rfl⟩ <;> simp [Vector3.cross]

/-- C18: Lagrange identity over a commutative ring: for `Vector3`,
`v.cross(w).square_length() + v.dot(w) * v.dot(w) == v.square_length() * w.square_length()`;
for `Vector2`, `v.cross(w) * v.cross(w) + v.dot(w) * v.dot(w)` equals the same product. -/
theorem lagrange_identity {T : Type} [CommRing T] :
    (∀ v w : Vector3 T,
      Vector3.square_length (Vector3.cross v w) + Vector3.dot v w * Vector3.dot v w
        = Vector3.square_length v * Vector3.square_length w) ∧
    (∀ v w : Vector2 T,
      Vector2.cross v w * Vector2.cross v w + Vector2.dot v w * Vector2.dot v w
        = Vector2.square_length v * Vector2.square_length w) := by
  constructor
  · intro v w
    simp only [Vector3.square_length, Vector3.cross, Vector3.dot]
    ring
  · intro v w
    simp only [Vector2.square_length, Vector2.cross, Vector2.dot]
    ring

/-- C15: every in-place operation agrees with its pure counterpart, for `Vector2` and
`Vector3` over any element type: after `v op= w` (`op` one of `+ - * / %`), `v *= s`,
`v /= s` or `v.normalize()`, the object `v` holds the value of the pure operation on the old
values, the reference returned is `v`, and every other object, in particular a right-hand
operand that is not `v` itself, is unchanged. -/
theorem inplace_agrees_with_pure {T : Type} [Add T] [Sub T] [Mul T] [Div T] [Mod T]
    (sqrt : T → T) :
    (AgreesBinary (Vector2 T) Vector2.addAssign Vector2.add ∧
      AgreesBinary (Vector2 T) Vector2.subAssign Vector2.sub ∧
      AgreesBinary (Vector2 T) Vector2.mulAssign Vector2.mul ∧
      AgreesBinary (Vector2 T) Vector2.divAssign Vector2.div ∧
      AgreesBinary (Vector2 T) Vector2.modAssign Vector2.mod ∧
      AgreesScalar (Vector2 T) Vector2.mulAssignScalar Vector2.mulScalar ∧
      AgreesScalar (Vector2 T) Vector2.divAssignScalar Vector2.divScalar ∧
      AgreesUnary (Vector2 T) (Vector2.normalize sqrt) (Vector2.normalized sqrt)) ∧
    (AgreesBinary (Vector3 T) Vector3.addAssign Vector3.add ∧
      AgreesBinary (Vector3 T) Vector3.subAssign Vector3.sub ∧
      AgreesBinary (Vector3 T) Vector3.mulAssign Vector3.mul ∧
      AgreesBinary (Vector3 T) Vector3.divAssign Vector3.div ∧
      AgreesBinary (Vector3 T) Vector3.modAssign Vector3.mod ∧
      AgreesScalar (Vector3 T) Vector3.mulAssignScalar Vector3.mulScalar ∧
      AgreesScalar (Vector3 T) Vector3.divAssignScalar Vector3.divScalar ∧
      AgreesUnary (Vector3 T) (Vector3.normalize sqrt) (Vector3.normalized sqrt)) := by
  refine ⟨⟨?_, ?_, ?_, ?_, ?_, ?_, ?_, ?_⟩, ⟨?_, ?_, ?_, ?_, ?_, ?_, ?_, ?_⟩⟩
  all_goals
    first
    | intro m self other
      refine ⟨rfl, ?_, fun r hr => ?_⟩ <;> by_cases h : other = self <;> simp [
      Vector2.addAssign, Vector2.subAssign, Vector2.mulAssign, Vector2.divAssign,
      Vector2.modAssign, Vector2.mulAssignScalar, Vector2.divAssignScalar,
      Vector2.normalize, Vector2.add, Vector2.sub, Vector2.mul, Vector2.div,
      Vector2.mod, Vector2.mulScalar, Vector2.divScalar, Vector2.normalized,
      Vector2.length, Store2.setX, Store2.setY, Vector3.addAssign, Vector3.subAssign,
      Vector3.mulAssign, Vector3.divAssign, Vector3.modAssign, Vector3.mulAssignScalar,
      Vector3.divAssignScalar, Vector3.normalize, Vector3.add, Vector3.sub, Vector3.mul,
      Vector3.div, Vector3.mod, Vector3.mulScalar, Vector3.divScalar,
      Vector3.normalized, Vector3.length, Store3.setX, Store3.setY, Store3.setZ, *]
    | intro m self scalar
      refine ⟨rfl, ?_, fun r hr => ?_⟩ <;> simp [
      Vector2.addAssign, Vector2.subAssign, Vector2.mulAssign, Vector2.divAssign,
      Vector2.modAssign, Vector2.mulAssignScalar, Vector2.divAssignScalar,
      Vector2.normalize, Vector2.add, Vector2.sub, Vector2.mul, Vector2.div,
      Vector2.mod, Vector2.mulScalar, Vector2.divScalar, Vector2.normalized,
      Vector2.length, Store2.setX, Store2.setY, Vector3.addAssign, Vector3.subAssign,
      Vector3.mulAssign, Vector3.divAssign, Vector3.modAssign, Vector3.mulAssignScalar,
      Vector3.divAssignScalar, Vector3.normalize, Vector3.add, Vector3.sub, Vector3.mul,
      Vector3.div, Vector3.mod, Vector3.mulScalar, Vector3.divScalar,
      Vector3.normalized, Vector3.length, Store3.setX, Store3.setY, Store3.setZ, *]
    | intro m self
      refine ⟨rfl, ?_, fun r hr => ?_⟩ <;> simp [
      Vector2.addAssign, Vector2.subAssign, Vector2.mulAssign, Vector2.divAssign,
      Vector2.modAssign, Vector2.mulAssignScalar, Vector2.divAssignScalar,
      Vector2.normalize, Vector2.add, Vector2.sub, Vector2.mul, Vector2.div,
      Vector2.mod, Vector2.mulScalar, Vector2.divScalar, Vector2.normalized,
      Vector2.length, Store2.setX, Store2.setY, Vector3.addAssign, Vector3.subAssign,
      Vector3.mulAssign, Vector3.divAssign, Vector3.modAssign, Vector3.mulAssignScalar,
      Vector3.divAssignScalar, Vector3.normalize, Vector3.add, Vector3.sub, Vector3.mul,
      Vector3.div, Vector3.mod, Vector3.mulScalar, Vector3.divScalar,
      Vector3.normalized, Vector3.length, Store3.setX, Store3.setY, Store3.setZ, *]

/-! ## Auxiliary facts about truncating division on `int` -/

/-- The remainder of the truncating division is smaller in absolute value than a nonzero
divisor. -/
theorem abs_tmod_lt (a b : Int) (hb : b ≠ 0) : |Int.tmod a b| < |b| := by
  have hnat : (Int.tmod a b).natAbs = a.natAbs % b.natAbs := by
    cases a <;> cases b <;> simp [Int.tmod] <;> norm_cast
  rw [Int.abs_eq_natAbs, Int.abs_eq_natAbs, hnat]
  exact_mod_cast Nat.mod_lt _ (Int.natAbs_pos.mpr hb)

/-- The remainder of the truncating division of a non-positive dividend is non-positive. -/
theorem tmod_nonpos (a b : Int) (h : a ≤ 0) : Int.tmod a b ≤ 0 := by
  cases a with
  | ofNat m =>
    have hm : m = 0 := by
      have : (m : Int) ≤ 0 := h
      omega
    subst hm
    simp
  | negSucc m =>
    cases b <;> simp only [Int.tmod] <;>
      exact Int.neg_nonpos_of_nonneg (Int.ofNat_nonneg _)

/-- The remainder of the truncating division lies between 0 and the dividend. -/
theorem tmod_between (a b : Int) :
    (0 ≤ a → 0 ≤ Int.tmod a b ∧ Int.tmod a b ≤ a) ∧
    (a ≤ 0 → a ≤ Int.tmod a b ∧ Int.tmod a b ≤ 0) := by
  have hnat : (Int.tmod a b).natAbs = a.natAbs % b.natAbs := by
    cases a <;> cases b <;> simp [Int.tmod] <;> norm_cast
  have hle : (Int.tmod a b).natAbs ≤ a.natAbs := hnat ▸ Nat.mod_le _ _
  constructor
  · intro h
    have := Int.tmod_nonneg b h
    omega
  · intro h
    have := tmod_nonpos a b h
    omega

/-- The truncated quotient of an `int` by a nonzero `int` is representable, `INT_MIN / -1`
apart. -/
theorem tdiv_in_range (a c : Int) (ha : INT_MIN ≤ a ∧ a ≤ INT_MAX) (hc : c ≠ 0)
    (hx : ¬ (a = INT_MIN ∧ c = -1)) :
    INT_MIN ≤ Int.tdiv a c ∧ Int.tdiv a c ≤ INT_MAX := by
  simp only [INT_MIN, INT_MAX] at *
  have hq : (Int.tdiv a c).natAbs = a.natAbs / c.natAbs := Int.natAbs_tdiv a c
  have h1 : a.natAbs / c.natAbs ≤ a.natAbs := Nat.div_le_self _ _
  by_cases hmin : a = -2147483648
  · subst hmin
    by_cases hc1 : c = 1
    · subst hc1
      simp
    · have hc2 : 2 ≤ c.natAbs := by omega
      have h2 : (-2147483648 : Int).natAbs / c.natAbs ≤ (-2147483648 : Int).natAbs / 2 :=
        Nat.div_le_div_left hc2 (by norm_num)
      have h3 : (-2147483648 : Int).natAbs = 2147483648 := by decide
      rw [h3] at h2 hq
      omega
  · omega

/-- Quotient times divisor, and the remainder, are representable for a representable
dividend. -/
theorem tdiv_mul_tmod_in_range (a c : Int) (ha : INT_MIN ≤ a ∧ a ≤ INT_MAX) :
    (INT_MIN ≤ Int.tdiv a c * c ∧ Int.tdiv a c * c ≤ INT_MAX) ∧
    (INT_MIN ≤ Int.tmod a c ∧ Int.tmod a c ≤ INT_MAX) := by
  simp only [INT_MIN, INT_MAX] at *
  have hsum := Int.tdiv_add_tmod' a c
  have hb := tmod_between a c
  rcases le_total 0 a with h | h
  · have := hb.1 h
    omega
  · have := hb.2 h
    omega

/-- Division and remainder on `int` where they are defined: the truncated quotient, its
remainder, and the division identity `(a / b) * b + a % b == a`. -/
theorem cint_div_mod_defined (a b : CInt) (h : CInt.DivDefined a b) :
    a / b = CInt.ok (Int.tdiv a.toInt b.toInt) ∧
    a % b = CInt.ok (Int.tmod a.toInt b.toInt) ∧
    a / b * b + a % b = a := by
  obtain ⟨ha, hb, hb0, hx⟩ := h
  cases a with
  | undef => exact absurd ha (fun k => k)
  | ok x =>
    cases b with
    | undef => exact absurd hb (fun k => k)
    | ok y =>
      simp only [CInt.toInt] at hb0 hx ⊢
      have hxr : INT_MIN ≤ x ∧ x ≤ INT_MAX := ha
      have hq := tdiv_in_range x y hxr hb0 hx
      have hr := tdiv_mul_tmod_in_range x y hxr
      have hdiv : CInt.ok x / CInt.ok y = CInt.ok (Int.tdiv x y) := by
        show CInt.div _ _ = _
        simp only [CInt.div, CInt.ofInt, if_neg hb0, if_pos hq]
      have hmod : CInt.ok x % CInt.ok y = CInt.ok (Int.tmod x y) := by
        show CInt.mod _ _ = _
        simp only [CInt.mod, CInt.ofInt, if_neg hb0, if_pos hq, if_pos hr.2]
      refine ⟨hdiv, hmod, ?_⟩
      rw [hdiv, hmod]
      show CInt.add (CInt.mul _ _) _ = _
      simp only [CInt.mul, CInt.add, CInt.ofInt, if_pos hr.1, Int.tdiv_add_tmod', if_pos hxr]

/-- The integer square root of a non-negative integer `s` is the largest `r ≥ 0` with
`r * r ≤ s`, and is at most `s`. -/
theorem int_sqrt_floor (s : Int) (hs : 0 ≤ s) :
    0 ≤ Int.sqrt s ∧ Int.sqrt s * Int.sqrt s ≤ s ∧
    s < (Int.sqrt s + 1) * (Int.sqrt s + 1) ∧ Int.sqrt s ≤ s := by
  obtain ⟨n, rfl⟩ := Int.eq_ofNat_of_zero_le hs
  refine ⟨Int.sqrt_nonneg _, ?_, ?_, ?_⟩
  · simp only [Int.sqrt, Int.toNat_ofNat]
    exact_mod_cast Nat.sqrt_le n
  · simp only [Int.sqrt, Int.toNat_ofNat]
    exact_mod_cast Nat.lt_succ_sqrt n
  · simp only [Int.sqrt, Int.toNat_ofNat]
    exact_mod_cast Nat.sqrt_le_self n

/-- C19, refuted as stated: for `v = (INT_MIN, 7)` and `w = (-1, 2)` every component of `w`
is a nonzero `int`, but `INT_MIN / -1` is not representable, so the `x` components of `v / w`
and of `v % w` are undefined and `(v / w) * w + (v % w)` is not `v`. -/
theorem int_div_mod_fails_at_int_min :
    ((CInt.ok INT_MIN).IsValue ∧ (CInt.ok 7).IsValue) ∧
    ((CInt.ok (-1)).IsValue ∧ (CInt.ok 2).IsValue) ∧
    ((CInt.ok (-1)).toInt ≠ 0 ∧ (CInt.ok 2).toInt ≠ 0) ∧
    Vector2.div ⟨CInt.ok INT_MIN, CInt.ok 7⟩ ⟨CInt.ok (-1), CInt.ok 2⟩
      = ⟨CInt.undef, CInt.ok 3⟩ ∧
    Vector2.mod ⟨CInt.ok INT_MIN, CInt.ok 7⟩ ⟨CInt.ok (-1), CInt.ok 2⟩
      = ⟨CInt.undef, CInt.ok 1⟩ ∧
    Vector2.add
        (Vector2.mul (Vector2.div ⟨CInt.ok INT_MIN, CInt.ok 7⟩ ⟨CInt.ok (-1), CInt.ok 2⟩)
          ⟨CInt.ok (-1), CInt.ok 2⟩)
        (Vector2.mod ⟨CInt.ok INT_MIN, CInt.ok 7⟩ ⟨CInt.ok (-1), CInt.ok 2⟩)
      ≠ ⟨CInt.ok INT_MIN, CInt.ok 7⟩ := by
  decide

/-- C19, amended: for the element type `int` (truncating division and remainder), for all
vectors `v`, `w` (`Vector2` and `Vector3`) of `int` values where every component of `w` is
nonzero and no component of `v` is `INT_MIN` over a component `-1` of `w`,
`(v / w) * w + (v % w) == v`, and each component of `v % w` is a value whose absolute value
is strictly less than the absolute value of the matching component of `w`. -/
theorem int_div_mod_identity (v w : Vector2 CInt) (a b : Vector3 CInt)
    (hvx : CInt.DivDefined v.x w.x) (hvy : CInt.DivDefined v.y w.y)
    (hax : CInt.DivDefined a.x b.x) (hay : CInt.DivDefined a.y b.y)
    (haz : CInt.DivDefined a.z b.z) :
    (Vector2.add (Vector2.mul (Vector2.div v w) w) (Vector2.mod v w) = v ∧
      ((Vector2.mod v w).x.IsValue ∧ |(Vector2.mod v w).x.toInt| < |w.x.toInt|) ∧
      ((Vector2.mod v w).y.IsValue ∧ |(Vector2.mod v w).y.toInt| < |w.y.toInt|)) ∧
    (Vector3.add (Vector3.mul (Vector3.div a b) b) (Vector3.mod a b) = a ∧
      ((Vector3.mod a b).x.IsValue ∧ |(Vector3.mod a b).x.toInt| < |b.x.toInt|) ∧
      ((Vector3.mod a b).y.IsValue ∧ |(Vector3.mod a b).y.toInt| < |b.y.toInt|) ∧
      ((Vector3.mod a b).z.IsValue ∧ |(Vector3.mod a b).z.toInt| < |b.z.toInt|)) := by
  have key : ∀ p q : CInt, CInt.DivDefined p q →
      (p % q).IsValue ∧ |(p % q).toInt| < |q.toInt| := by
    intro p q h
    rw [(cint_div_mod_defined p q h).2.1]
    obtain ⟨hp, hq, hq0, -⟩ := h
    cases p with
    | undef => exact absurd hp (fun k => k)
    | ok x => exact ⟨(tdiv_mul_tmod_in_range x q.toInt hp).2, abs_tmod_lt _ _ hq0⟩
  refine ⟨⟨?_, key _ _ hvx, key _ _ hvy⟩, ⟨?_, key _ _ hax, key _ _ hay, key _ _ haz⟩⟩
  · obtain ⟨x, y⟩ := v
    simp only [Vector2.add, Vector2.mul, Vector2.div, Vector2.mod,
      (cint_div_mod_defined _ _ hvx).2.2, (cint_div_mod_defined _ _ hvy).2.2]
  · obtain ⟨x, y, z⟩ := a
    simp only [Vector3.add, Vector3.mul, Vector3.div, Vector3.mod,
      (cint_div_mod_defined _ _ hax).2.2, (cint_div_mod_defined _ _ hay).2.2,
      (cint_div_mod_defined _ _ haz).2.2]

/-- Witness of the amended C19 at `v = (-7, 7)`, `w = (2, -2)` and `a = (-7, 7, INT_MIN)`,
`b = (2, -2, 1)`. -/
theorem int_div_mod_identity_witness :
    (CInt.DivDefined (CInt.ok (-7)) (CInt.ok 2) ∧ CInt.DivDefined (CInt.ok 7) (CInt.ok (-2)) ∧
      CInt.DivDefined (CInt.ok INT_MIN) (CInt.ok 1)) ∧
    (Vector2.add
        (Vector2.mul (Vector2.div ⟨CInt.ok (-7), CInt.ok 7⟩ ⟨CInt.ok 2, CInt.ok (-2)⟩)
          ⟨CInt.ok 2, CInt.ok (-2)⟩)
        (Vector2.mod ⟨CInt.ok (-7), CInt.ok 7⟩ ⟨CInt.ok 2, CInt.ok (-2)⟩)
        = ⟨CInt.ok (-7), CInt.ok 7⟩ ∧
      ((Vector2.mod ⟨CInt.ok (-7), CInt.ok 7⟩ ⟨CInt.ok 2, CInt.ok (-2)⟩).x.IsValue ∧
        |(Vector2.mod ⟨CInt.ok (-7), CInt.ok 7⟩ ⟨CInt.ok 2, CInt.ok (-2)⟩).x.toInt|
          < |(CInt.ok 2).toInt|) ∧
      ((Vector2.mod ⟨CInt.ok (-7), CInt.ok 7⟩ ⟨CInt.ok 2, CInt.ok (-2)⟩).y.IsValue ∧
        |(Vector2.mod ⟨CInt.ok (-7), CInt.ok 7⟩ ⟨CInt.ok 2, CInt.ok (-2)⟩).y.toInt|
          < |(CInt.ok (-2)).toInt|)) ∧
    (Vector3.add
        (Vector3.mul
          (Vector3.div ⟨CInt.ok (-7), CInt.ok 7, CInt.ok INT_MIN⟩
            ⟨CInt.ok 2, CInt.ok (-2), CInt.ok 1⟩)
          ⟨CInt.ok 2, CInt.ok (-2), CInt.ok 1⟩)
        (Vector3.mod ⟨CInt.ok (-7), CInt.ok 7, CInt.ok INT_MIN⟩
          ⟨CInt.ok 2, CInt.ok (-2), CInt.ok 1⟩)
        = ⟨CInt.ok (-7), CInt.ok 7, CInt.ok INT_MIN⟩ ∧
      ((Vector3.mod ⟨CInt.ok (-7), CInt.ok 7, CInt.ok INT_MIN⟩
          ⟨CInt.ok 2, CInt.ok (-2), CInt.ok 1⟩).x.IsValue ∧
        |(Vector3.mod ⟨CInt.ok (-7), CInt.ok 7, CInt.ok INT_MIN⟩
          ⟨CInt.ok 2, CInt.ok (-2), CInt.ok 1⟩).x.toInt| < |(CInt.ok 2).toInt|) ∧
      ((Vector3.mod ⟨CInt.ok (-7), CInt.ok 7, CInt.ok INT_MIN⟩
          ⟨CInt.ok 2, CInt.ok (-2), CInt.ok 1⟩).y.IsValue ∧
        |(Vector3.mod ⟨CInt.ok (-7), CInt.ok 7, CInt.ok INT_MIN⟩
          ⟨CInt.ok 2, CInt.ok (-2), CInt.ok 1⟩).y.toInt| < |(CInt.ok (-2)).toInt|) ∧
      ((Vector3.mod ⟨CInt.ok (-7), CInt.ok 7, CInt.ok INT_MIN⟩
          ⟨CInt.ok 2, CInt.ok (-2), CInt.ok 1⟩).z.IsValue ∧
        |(Vector3.mod ⟨CInt.ok (-7), CInt.ok 7, CInt.ok INT_MIN⟩
          ⟨CInt.ok 2, CInt.ok (-2), CInt.ok 1⟩).z.toInt| < |(CInt.ok 1).toInt|)) :=
  ⟨by decide,
    int_div_mod_identity ⟨CInt.ok (-7), CInt.ok 7⟩ ⟨CInt.ok 2, CInt.ok (-2)⟩
      ⟨CInt.ok (-7), CInt.ok 7, CInt.ok INT_MIN⟩ ⟨CInt.ok 2, CInt.ok (-2), CInt.ok 1⟩
      (by decide) (by decide) (by decide) (by decide) (by decide)⟩

/-- C20: for the element type `int`, `normalized()` does not produce a unit vector.
Wherever the sum of squares does not overflow, `length()` is its square root truncated to
an integer; wherever the division is defined, the division by a scalar truncates; and
`Vector2<int>(3,4)` has `length() == 5` and `normalized() == Vector2<int>(0,0)`, whose
`square_length()` is 0: a nonzero vector of `int` values whose normalized vector is defined
and has `square_length() != 1`. -/
theorem int_normalized_not_unit :
    (∀ v : Vector2 CInt, v.x.IsValue → v.y.IsValue → (Vector2.square_length v).IsValue →
      (Vector2.length CInt.sqrt v).IsValue ∧
      0 ≤ (Vector2.length CInt.sqrt v).toInt ∧
      (Vector2.length CInt.sqrt v).toInt * (Vector2.length CInt.sqrt v).toInt
        ≤ (Vector2.square_length v).toInt ∧
      (Vector2.square_length v).toInt
        < ((Vector2.length CInt.sqrt v).toInt + 1)
          * ((Vector2.length CInt.sqrt v).toInt + 1)) ∧
    (∀ (v : Vector2 CInt) (s : CInt), CInt.DivDefined v.x s → CInt.DivDefined v.y s →
      Vector2.divScalar v s
        = ⟨CInt.ok (Int.tdiv v.x.toInt s.toInt), CInt.ok (Int.tdiv v.y.toInt s.toInt)⟩) ∧
    Vector2.length CInt.sqrt (⟨3, 4⟩ : Vector2 CInt) = 5 ∧
    Vector2.normalized CInt.sqrt (⟨3, 4⟩ : Vector2 CInt) = ⟨0, 0⟩ ∧
    Vector2.square_length (Vector2.normalized CInt.sqrt (⟨3, 4⟩ : Vector2 CInt)) = 0 ∧
    (∃ v : Vector2 CInt, v.x.IsValue ∧ v.y.IsValue ∧ v ≠ ⟨0, 0⟩ ∧
      (Vector2.square_length (Vector2.normalized CInt.sqrt v)).IsValue ∧
      Vector2.square_length (Vector2.normalized CInt.sqrt v) ≠ 1) := by
  have hlen : Vector2.length CInt.sqrt (⟨3, 4⟩ : Vector2 CInt) = 5 := by
    have h25 : (3 : CInt) * 3 + 4 * 4 = CInt.ok 25 := by decide
    show CInt.sqrt ((3 : CInt) * 3 + 4 * 4) = 5
    rw [h25]
    show (if (0 : Int) ≤ 25 then CInt.ofInt (Int.sqrt 25) else CInt.undef) = 5
    rw [show Int.sqrt 25 = 5 from Int.sqrt_eq 5]
    decide
  have hnorm : Vector2.normalized CInt.sqrt (⟨3, 4⟩ : Vector2 CInt) = ⟨0, 0⟩ := by
    rw [Vector2.normalized, hlen]
    decide
  refine ⟨?_, ?_, hlen, hnorm, ?_, ⟨⟨3, 4⟩, by decide, by decide, by decide, ?_, ?_⟩⟩
  · intro v hx hy hs
    obtain ⟨x, y⟩ := v
    cases x with
    | undef => exact absurd hx (fun k => k)
    | ok a =>
      cases y with
      | undef => exact absurd hy (fun k => k)
      | ok b =>
        have hsq : Vector2.square_length (⟨CInt.ok a, CInt.ok b⟩ : Vector2 CInt)
            = CInt.add (CInt.ofInt (a * a)) (CInt.ofInt (b * b)) := rfl
        have hlen' : Vector2.length CInt.sqrt (⟨CInt.ok a, CInt.ok b⟩ : Vector2 CInt)
            = CInt.sqrt (CInt.add (CInt.ofInt (a * a)) (CInt.ofInt (b * b))) := rfl
        rw [hsq] at hs ⊢
        rw [hlen']
        by_cases h1 : INT_MIN ≤ a * a ∧ a * a ≤ INT_MAX
        · by_cases h2 : INT_MIN ≤ b * b ∧ b * b ≤ INT_MAX
          · by_cases h3 : INT_MIN ≤ a * a + b * b ∧ a * a + b * b ≤ INT_MAX
            · have h0 : 0 ≤ a * a + b * b := by
                nlinarith [mul_self_nonneg a, mul_self_nonneg b]
              obtain ⟨f1, f2, f3, f4⟩ := int_sqrt_floor _ h0
              have hr : INT_MIN ≤ Int.sqrt (a * a + b * b) ∧
                  Int.sqrt (a * a + b * b) ≤ INT_MAX := by
                have := h3.2
                simp only [INT_MIN, INT_MAX] at *
                omega
              simp only [CInt.ofInt, if_pos h1, if_pos h2, CInt.add, if_pos h3, CInt.sqrt,
                if_pos h0, if_pos hr, CInt.toInt]
              exact ⟨hr, f1, f2, f3⟩
            · simp only [CInt.ofInt, if_pos h1, if_pos h2, CInt.add, if_neg h3] at hs
              exact absurd hs (fun k => k)
          · simp only [CInt.ofInt, if_pos h1, if_neg h2, CInt.add] at hs
            exact absurd hs (fun k => k)
        · simp only [CInt.ofInt, if_neg h1, CInt.add] at hs
          exact absurd hs (fun k => k)
  · intro v s hx hy
    simp only [Vector2.divScalar, (cint_div_mod_defined _ _ hx).1,
      (cint_div_mod_defined _ _ hy).1]
  · rw [hnorm]
    decide
  · rw [hnorm]
    decide
  · rw [hnorm]
    decide

/-- Witness of C20 at `Vector2<int>(3,4)` and the scalar 5: the conditions of the two
general statements hold there and give the truncated square root and quotients. -/
theorem int_normalized_not_unit_witness :
    ((CInt.ok 3).IsValue ∧ (CInt.ok 4).IsValue ∧
      (Vector2.square_length (⟨CInt.ok 3, CInt.ok 4⟩ : Vector2 CInt)).IsValue) ∧
    (CInt.DivDefined (CInt.ok 3) (CInt.ok 5) ∧ CInt.DivDefined (CInt.ok 4) (CInt.ok 5)) ∧
    ((Vector2.length CInt.sqrt ⟨CInt.ok 3, CInt.ok 4⟩).IsValue ∧
      0 ≤ (Vector2.length CInt.sqrt ⟨CInt.ok 3, CInt.ok 4⟩).toInt ∧
      (Vector2.length CInt.sqrt ⟨CInt.ok 3, CInt.ok 4⟩).toInt
          * (Vector2.length CInt.sqrt ⟨CInt.ok 3, CInt.ok 4⟩).toInt
        ≤ (Vector2.square_length (⟨CInt.ok 3, CInt.ok 4⟩ : Vector2 CInt)).toInt ∧
      (Vector2.square_length (⟨CInt.ok 3, CInt.ok 4⟩ : Vector2 CInt)).toInt
        < ((Vector2.length CInt.sqrt ⟨CInt.ok 3, CInt.ok 4⟩).toInt + 1)
          * ((Vector2.length CInt.sqrt ⟨CInt.ok 3, CInt.ok 4⟩).toInt + 1)) ∧
    Vector2.divScalar (⟨CInt.ok 3, CInt.ok 4⟩ : Vector2 CInt) (CInt.ok 5)
      = ⟨CInt.ok (Int.tdiv 3 5), CInt.ok (Int.tdiv 4 5)⟩ :=
  ⟨by decide, by decide,
    int_normalized_not_unit.1 ⟨CInt.ok 3, CInt.ok 4⟩ (by decide) (by decide) (by decide),
    int_normalized_not_unit.2.1 ⟨CInt.ok 3, CInt.ok 4⟩ (CInt.ok 5) (by decide) (by decide)⟩

end VectorLib
